import Mathlib

/-
Verification of the spaced-repetition scheduler of the Glosify app.

Embedding conventions:
- Python floats are modelled as exact rationals (the update algorithm only
  adds, subtracts, multiplies, clamps and truncates, so the rational reading
  is the intended real-number semantics of the source constants).
- Python `int(x)` truncates toward zero; `truncInt` models that on rationals.
- Timestamps are modelled as integers counting days, so that
  `datetime.utcnow() + timedelta(days=interval)` becomes `now + interval`.
- Nullable database columns (`word.ease_factor or 2.5` etc.) are modelled as
  `Option` fields read through `Option.getD` with the defaults of the source.
-/

namespace Glosify

/-- Python `int()` applied to a rational: truncation toward zero. -/
def truncInt (q : ℚ) : ℤ := if 0 ≤ q then ⌊q⌋ else ⌈q⌉

/-- `calculate_sm2` from `src/app.py` (lines 1669-1702), translated clause by
clause. Returns the triple (new ease factor, new interval, new repetitions);
a rating outside 1..4 falls through every branch and returns the inputs. -/
def calculate_sm2 (rating : ℤ) (ease_factor : ℚ) (interval : ℤ) (repetitions : ℤ) :
    ℚ × ℤ × ℤ :=
  if rating = 1 then
    (max (13/10) (ease_factor - 2/10), 0, 0)
  else if rating = 2 then
    (max (13/10) (ease_factor - 15/100),
     if repetitions = 0 then 1 else max 1 (truncInt ((interval : ℚ) * (12/10))),
     repetitions + 1)
  else if rating = 3 then
    (ease_factor,
     if repetitions = 0 then 1
      else if repetitions = 1 then 6
      else truncInt ((interval : ℚ) * ease_factor),
     repetitions + 1)
  else if rating = 4 then
    (min 3 (ease_factor + 15/100),
     if repetitions = 0 then 4
      else if repetitions = 1 then 10
      else truncInt ((interval : ℚ) * ease_factor * (13/10)),
     repetitions + 1)
  else
    (ease_factor, interval, repetitions)

/-- The update function exactly as section 4.1 of the spec words it, with
`floor` in place of Python truncation. Used only to compare with
`calculate_sm2`; outside ratings 1..4 the spec prescribes nothing, so the
fallthrough branch mirrors the code. -/
def sm2_spec (rating : ℤ) (ease_factor : ℚ) (interval : ℤ) (repetitions : ℤ) :
    ℚ × ℤ × ℤ :=
  if rating = 1 then
    (max (13/10) (ease_factor - 2/10), 0, 0)
  else if rating = 2 then
    (max (13/10) (ease_factor - 15/100),
     if repetitions = 0 then 1 else max 1 ⌊(interval : ℚ) * (12/10)⌋,
     repetitions + 1)
  else if rating = 3 then
    (ease_factor,
     if repetitions = 0 then 1
      else if repetitions = 1 then 6
      else ⌊(interval : ℚ) * ease_factor⌋,
     repetitions + 1)
  else if rating = 4 then
    (min 3 (ease_factor + 15/100),
     if repetitions = 0 then 4
      else if repetitions = 1 then 10
      else ⌊(interval : ℚ) * ease_factor * (13/10)⌋,
     repetitions + 1)
  else
    (ease_factor, interval, repetitions)

theorem truncInt_of_nonneg {q : ℚ} (h : 0 ≤ q) : truncInt q = ⌊q⌋ := if_pos h

/-- C1: for every rating in 1..4 and every input state obeying the data model
of section 3 (ease factor at least 1.3, interval and repetitions nonnegative),
`calculate_sm2` returns exactly the triple prescribed by the case analysis of
the spec, and in particular update(3, 2.0, 6, 2) = (2.0, 12, 3). -/
theorem calculate_sm2_matches_spec (rating : ℤ)
    (hr : rating = 1 ∨ rating = 2 ∨ rating = 3 ∨ rating = 4)
    (ef : ℚ) (iv reps : ℤ)
    (hef : (13:ℚ)/10 ≤ ef) (hiv : 0 ≤ iv) (hreps : 0 ≤ reps) :
    calculate_sm2 rating ef iv reps = sm2_spec rating ef iv reps ∧
    calculate_sm2 3 2 6 2 = (2, 12, 3) := by
  have hef0 : (0:ℚ) ≤ ef := le_trans (by norm_num) hef
  have hiv0 : (0:ℚ) ≤ (iv : ℚ) := by exact_mod_cast hiv
  constructor
  · rcases hr with h | h | h | h <;> subst h
    · simp [calculate_sm2, sm2_spec]
    · have h12 : (0:ℚ) ≤ (iv : ℚ) * (12/10) := by positivity
      simp [calculate_sm2, sm2_spec, truncInt_of_nonneg h12]
    · have h3 : (0:ℚ) ≤ (iv : ℚ) * ef := mul_nonneg hiv0 hef0
      simp [calculate_sm2, sm2_spec, truncInt_of_nonneg h3]
    · have h4 : (0:ℚ) ≤ (iv : ℚ) * ef * (13/10) := by positivity
      simp [calculate_sm2, sm2_spec, truncInt_of_nonneg h4]
  · norm_num [calculate_sm2, truncInt]

/-- C1 witness: the theorem applied at the concrete state of the pinned
example, rating 3 on state (2.0, 6, 2). -/
theorem calculate_sm2_matches_spec_witness :
    calculate_sm2 3 2 6 2 = sm2_spec 3 2 6 2 ∧ calculate_sm2 3 2 6 2 = (2, 12, 3) :=
  calculate_sm2_matches_spec 3 (by norm_num) 2 6 2 (by norm_num) (by norm_num) (by norm_num)

/-- C3: for every rating in 1..4 and every input state with ease factor in
[1.3, 3.0], nonnegative interval and nonnegative repetitions, the ease factor
returned by `calculate_sm2` again lies in [1.3, 3.0]. -/
theorem sm2_ease_bounds (rating : ℤ)
    (hr : rating = 1 ∨ rating = 2 ∨ rating = 3 ∨ rating = 4)
    (ef : ℚ) (iv reps : ℤ)
    (hlo : (13:ℚ)/10 ≤ ef) (hhi : ef ≤ 3) (hiv : 0 ≤ iv) (hreps : 0 ≤ reps) :
    (13:ℚ)/10 ≤ (calculate_sm2 rating ef iv reps).1 ∧
    (calculate_sm2 rating ef iv reps).1 ≤ 3 := by
  rcases hr with h | h | h | h <;> subst h <;>
    refine ⟨?_, ?_⟩ <;>
    norm_num [calculate_sm2, le_max_iff, max_le_iff, le_min_iff, min_le_iff] <;>
    linarith

/-- C3 witness: the ease bounds at the concrete new-card state (2.5, 0, 0)
under rating 2. -/
theorem sm2_ease_bounds_witness :
    (13:ℚ)/10 ≤ (calculate_sm2 2 (5/2) 0 0).1 ∧ (calculate_sm2 2 (5/2) 0 0).1 ≤ 3 :=
  sm2_ease_bounds 2 (by norm_num) (5/2) 0 0 (by norm_num) (by norm_num)
    (by norm_num) (by norm_num)

/-- C4 counterexample: a failed review (rating 1) of the state (2.5, 5, 3)
leaves repetitions equal to 0, not at least 1, refuting the claim that every
review (successful or failed) leaves repetitions at least 1 and that zero
repetitions can only mean never reviewed. -/
theorem failed_review_resets_repetitions :
    (calculate_sm2 1 (5/2) 5 3).2.2 = 0 ∧ ¬ (1 ≤ (calculate_sm2 1 (5/2) 5 3).2.2) := by
  norm_num [calculate_sm2]

/-- C4 amended: a successful review (rating 2, 3 or 4) increments repetitions
and hence leaves it at least 1 for nonnegative input repetitions, while a
failed review (rating 1) resets repetitions to 0, so repetitions equal to 0
also holds right after a failure, not only for never-reviewed cards. -/
theorem review_repetitions_amended (ef : ℚ) (iv reps : ℤ) (hreps : 0 ≤ reps) :
    (calculate_sm2 1 ef iv reps).2.2 = 0 ∧
    (calculate_sm2 2 ef iv reps).2.2 = reps + 1 ∧
    (calculate_sm2 3 ef iv reps).2.2 = reps + 1 ∧
    (calculate_sm2 4 ef iv reps).2.2 = reps + 1 ∧
    1 ≤ (calculate_sm2 2 ef iv reps).2.2 ∧
    1 ≤ (calculate_sm2 3 ef iv reps).2.2 ∧
    1 ≤ (calculate_sm2 4 ef iv reps).2.2 := by
  refine ⟨?_, ?_, ?_, ?_, ?_, ?_, ?_⟩ <;> norm_num [calculate_sm2] <;> omega

/-- C4 amended witness: the amended repetition facts at the concrete state
(2.5, 0, 0). -/
theorem review_repetitions_amended_witness :
    (calculate_sm2 1 (5/2) 0 0).2.2 = 0 ∧
    (calculate_sm2 2 (5/2) 0 0).2.2 = 0 + 1 ∧
    (calculate_sm2 3 (5/2) 0 0).2.2 = 0 + 1 ∧
    (calculate_sm2 4 (5/2) 0 0).2.2 = 0 + 1 ∧
    1 ≤ (calculate_sm2 2 (5/2) 0 0).2.2 ∧
    1 ≤ (calculate_sm2 3 (5/2) 0 0).2.2 ∧
    1 ≤ (calculate_sm2 4 (5/2) 0 0).2.2 :=
  review_repetitions_amended (5/2) 0 0 (by norm_num)

/-- C5 counterexample: rating 3 on the state (2.5, 0, 2) — interval 0 with
repetitions 2, a state allowed by the claim, which requires only nonnegative
interval and repetitions — returns repetitions 3 but interval 0, refuting the
claim that the returned interval is at least 1 whenever the returned
repetitions count is at least 1. -/
theorem interval_zero_with_positive_repetitions :
    1 ≤ (calculate_sm2 3 (5/2) 0 2).2.2 ∧
    ¬ (1 ≤ (calculate_sm2 3 (5/2) 0 2).2.1) := by
  norm_num [calculate_sm2, truncInt]

/-- C5 amended: for every rating in 1..4 and every input state with ease
factor at least 1.3, nonnegative interval, nonnegative repetitions, and
interval at least 1 whenever repetitions is at least 2, the returned interval
is nonnegative and is at least 1 whenever the returned repetitions count is
at least 1. -/
theorem sm2_interval_bounds_amended (rating : ℤ)
    (hr : rating = 1 ∨ rating = 2 ∨ rating = 3 ∨ rating = 4)
    (ef : ℚ) (iv reps : ℤ)
    (hef : (13:ℚ)/10 ≤ ef) (hiv : 0 ≤ iv) (hreps : 0 ≤ reps)
    (hgrown : 2 ≤ reps → 1 ≤ iv) :
    0 ≤ (calculate_sm2 rating ef iv reps).2.1 ∧
    (1 ≤ (calculate_sm2 rating ef iv reps).2.2 →
      1 ≤ (calculate_sm2 rating ef iv reps).2.1) := by
  have hiv0 : (0:ℚ) ≤ (iv : ℚ) := by exact_mod_cast hiv
  rcases hr with h | h | h | h <;> subst h
  · norm_num [calculate_sm2]
  · by_cases h0 : reps = 0
    · simp [calculate_sm2, h0]
    · simp only [calculate_sm2]
      norm_num [h0]
  · by_cases h0 : reps = 0
    · simp [calculate_sm2, h0]
    · by_cases h1 : reps = 1
      · simp [calculate_sm2, h0, h1]
      · have hiv1 : (1:ℤ) ≤ iv := hgrown (by omega)
        have hiv1q : (1:ℚ) ≤ (iv : ℚ) := by exact_mod_cast hiv1
        have hkey : (1:ℚ) ≤ (iv : ℚ) * ef := by nlinarith
        have hfl : (1:ℤ) ≤ ⌊(iv : ℚ) * ef⌋ := Int.le_floor.mpr (by push_cast; linarith)
        simp only [calculate_sm2]
        norm_num [h0, h1, truncInt_of_nonneg (by linarith : (0:ℚ) ≤ (iv : ℚ) * ef)]
        omega
  · by_cases h0 : reps = 0
    · simp [calculate_sm2, h0]
    · by_cases h1 : reps = 1
      · simp [calculate_sm2, h0, h1]
      · have hiv1 : (1:ℤ) ≤ iv := hgrown (by omega)
        have hiv1q : (1:ℚ) ≤ (iv : ℚ) := by exact_mod_cast hiv1
        have hkey : (1:ℚ) ≤ (iv : ℚ) * ef * (13/10) := by nlinarith
        have hfl : (1:ℤ) ≤ ⌊(iv : ℚ) * ef * (13/10)⌋ :=
          Int.le_floor.mpr (by push_cast; linarith)
        simp only [calculate_sm2]
        norm_num [h0, h1,
          truncInt_of_nonneg (by linarith : (0:ℚ) ≤ (iv : ℚ) * ef * (13/10))]
        omega

/-- C5 amended witness: the amended interval bounds at rating 3 on the state
(2.5, 6, 2). -/
theorem sm2_interval_bounds_amended_witness :
    0 ≤ (calculate_sm2 3 (5/2) 6 2).2.1 ∧
    (1 ≤ (calculate_sm2 3 (5/2) 6 2).2.2 → 1 ≤ (calculate_sm2 3 (5/2) 6 2).2.1) :=
  sm2_interval_bounds_amended 3 (by norm_num) (5/2) 6 2 (by norm_num) (by norm_num)
    (by norm_num) (fun _ => by norm_num)

/-- C10: for every integer rating outside 1..4 and every input state,
`calculate_sm2` raises no error (it is a total function) and returns its three
inputs unchanged: it performs no rating validation of its own. -/
theorem calculate_sm2_invalid_rating_identity (rating : ℤ)
    (hr : rating ≠ 1 ∧ rating ≠ 2 ∧ rating ≠ 3 ∧ rating ≠ 4)
    (ef : ℚ) (iv reps : ℤ) :
    calculate_sm2 rating ef iv reps = (ef, iv, reps) := by
  obtain ⟨h1, h2, h3, h4⟩ := hr
  simp [calculate_sm2, h1, h2, h3, h4]

/-- C10 witness: rating 5 on the state (2.5, 7, 4) is returned unchanged. -/
theorem calculate_sm2_invalid_rating_identity_witness :
    calculate_sm2 5 (5/2) 7 4 = (5/2, 7, 4) :=
  calculate_sm2_invalid_rating_identity 5 (by norm_num) (5/2) 7 4

/-- Scheduling columns of a word (or sentence) row: two independent direction
schedules, each with nullable ease factor, interval, repetitions and due date,
as in the SQLAlchemy model read by `src/app.py`. -/
structure Word where
  ease_factor : Option ℚ
  interval : Option ℤ
  repetitions : Option ℤ
  due_date : Option ℤ
  ease_factor_reverse : Option ℚ
  interval_reverse : Option ℤ
  repetitions_reverse : Option ℤ
  due_date_reverse : Option ℤ
deriving DecidableEq

/-- Direction-specific scheduling fields as returned by the `get_anki_fields`
helper of `api_get_anki_cards` in `src/app.py` (lines 1500-1515), with the
source defaults 2.5, 0, 0 and `now` for missing columns. -/
structure AnkiFields where
  ease_factor : ℚ
  interval : ℤ
  repetitions : ℤ
  due_date : ℤ
deriving DecidableEq

/-- `get_anki_fields(item, is_reverse)` from `api_get_anki_cards`. -/
def get_anki_fields (now : ℤ) (item : Word) (is_reverse : Bool) : AnkiFields :=
  if is_reverse then
    { ease_factor := item.ease_factor_reverse.getD (5/2)
      interval := item.interval_reverse.getD 0
      repetitions := item.repetitions_reverse.getD 0
      due_date := item.due_date_reverse.getD now }
  else
    { ease_factor := item.ease_factor.getD (5/2)
      interval := item.interval.getD 0
      repetitions := item.repetitions.getD 0
      due_date := item.due_date.getD now }

/-- The three classification outcomes of the due-card selector. -/
inductive CardClass where
  | New
  | Due
  | NotDue
deriving DecidableEq

/-- Per-item decision of the selection loop of `api_get_anki_cards`
(lines 1560-1585): `is_new = repetitions == 0`, `is_due = due_date <= now`,
appended to the new list if new, else to the due list if due, else dropped. -/
def classify_card (now : ℤ) (f : AnkiFields) : CardClass :=
  if f.repetitions = 0 then CardClass.New
  else if f.due_date ≤ now then CardClass.Due
  else CardClass.NotDue

/-- C2: for every card-direction item with nonnegative repetitions and every
time `now`, the selector puts the item in exactly one of three disjoint
classes: New iff repetitions = 0, Due iff repetitions > 0 and the due date
has passed, NotDue iff repetitions > 0 and the due date is in the future. -/
theorem classify_card_partition (now : ℤ) (f : AnkiFields)
    (h : 0 ≤ f.repetitions) :
    (classify_card now f = CardClass.New ∨ classify_card now f = CardClass.Due ∨
      classify_card now f = CardClass.NotDue) ∧
    (classify_card now f = CardClass.New ↔ f.repetitions = 0) ∧
    (classify_card now f = CardClass.Due ↔ 0 < f.repetitions ∧ f.due_date ≤ now) ∧
    (classify_card now f = CardClass.NotDue ↔ 0 < f.repetitions ∧ now < f.due_date) := by
  unfold classify_card
  split_ifs with h0 h1 <;> simp_all <;> omega

/-- C2 witness: a reviewed card with a passed due date is classified Due. -/
theorem classify_card_partition_witness :
    (classify_card 5 ⟨5/2, 1, 1, 3⟩ = CardClass.New ∨
      classify_card 5 ⟨5/2, 1, 1, 3⟩ = CardClass.Due ∨
      classify_card 5 ⟨5/2, 1, 1, 3⟩ = CardClass.NotDue) ∧
    (classify_card 5 ⟨5/2, 1, 1, 3⟩ = CardClass.New ↔ (1:ℤ) = 0) ∧
    (classify_card 5 ⟨5/2, 1, 1, 3⟩ = CardClass.Due ↔ (0:ℤ) < 1 ∧ (3:ℤ) ≤ 5) ∧
    (classify_card 5 ⟨5/2, 1, 1, 3⟩ = CardClass.NotDue ↔ (0:ℤ) < 1 ∧ (5:ℤ) < 3) :=
  classify_card_partition 5 ⟨5/2, 1, 1, 3⟩ (by norm_num)

/-- State change performed by `api_review_word` in `src/app.py`
(lines 1738-1762) once the rating is validated: read the direction-specific
fields with their defaults, run `calculate_sm2`, set the due date to
`now + interval` days, and write the four fields of that direction back. -/
def review_word (rating : ℤ) (direction_reverse : Bool) (now : ℤ) (w : Word) : Word :=
  let ef := if direction_reverse then w.ease_factor_reverse.getD (5/2)
            else w.ease_factor.getD (5/2)
  let iv := if direction_reverse then w.interval_reverse.getD 0 else w.interval.getD 0
  let reps := if direction_reverse then w.repetitions_reverse.getD 0
              else w.repetitions.getD 0
  let r := calculate_sm2 rating ef iv reps
  let due := now + r.2.1
  if direction_reverse then
    { w with ease_factor_reverse := some r.1, interval_reverse := some r.2.1,
             repetitions_reverse := some r.2.2, due_date_reverse := some due }
  else
    { w with ease_factor := some r.1, interval := some r.2.1,
             repetitions := some r.2.2, due_date := some due }

/-- Errors of the review endpoint relevant to the scheduler; the missing-word
and access checks of the handler concern the persistence layer and are
outside this embedding. -/
inductive ReviewError where
  | InvalidRating
deriving DecidableEq

/-- The rating-validation slice of `api_review_word` (lines 1728-1762):
`if rating not in [1, 2, 3, 4]` the handler returns an error before the
update algorithm runs and nothing is written; otherwise the review update is
applied and committed. First component: the HTTP outcome; second component:
the stored row after the call. -/
def api_review_word (rating : ℤ) (direction_reverse : Bool) (now : ℤ) (w : Word) :
    Except ReviewError Word × Word :=
  if rating ∉ ([1, 2, 3, 4] : List ℤ) then
    (Except.error ReviewError.InvalidRating, w)
  else
    (Except.ok (review_word rating direction_reverse now w),
     review_word rating direction_reverse now w)

/-- Forward-direction scheduling fields of a row. -/
def forward_fields (w : Word) : Option ℚ × Option ℤ × Option ℤ × Option ℤ :=
  (w.ease_factor, w.interval, w.repetitions, w.due_date)

/-- Reverse-direction scheduling fields of a row. -/
def reverse_fields (w : Word) : Option ℚ × Option ℤ × Option ℤ × Option ℤ :=
  (w.ease_factor_reverse, w.interval_reverse, w.repetitions_reverse, w.due_date_reverse)

/-- Per-row reset of `reset_all_anki` in `src/reset_all_anki.py`
(lines 24-37): both directions are forced to ease factor 2.5, interval 0,
repetitions 1 and due date `now`, regardless of the previous row state. -/
def reset_word (now : ℤ) (_w : Word) : Word :=
  { ease_factor := some (5/2), interval := some 0,
    repetitions := some 1, due_date := some now,
    ease_factor_reverse := some (5/2), interval_reverse := some 0,
    repetitions_reverse := some 1, due_date_reverse := some now }

/-- C6: for every prior row state, time `now` and direction, the reset
operation produces ease factor 2.5, interval 0, repetitions 1 and due date
`now`, and at the reset moment the selector classifies the card-direction as
Due, not New. -/
theorem reset_word_state_and_class (now : ℤ) (w : Word) (dir : Bool) :
    get_anki_fields now (reset_word now w) dir =
      { ease_factor := 5/2, interval := 0, repetitions := 1, due_date := now } ∧
    classify_card now (get_anki_fields now (reset_word now w) dir) = CardClass.Due ∧
    classify_card now (get_anki_fields now (reset_word now w) dir) ≠ CardClass.New := by
  cases dir <;> simp [reset_word, get_anki_fields, classify_card]

/-- C7: reviewing the forward schedule leaves all four reverse fields of the
row unchanged and vice versa, and the updated fields of one direction are
computed without reading the other direction: two rows agreeing on the
reviewed direction agree on that direction after the review, whatever their
other-direction fields. -/
theorem review_word_direction_independence (rating : ℤ) (now : ℤ) (w : Word) :
    reverse_fields (review_word rating false now w) = reverse_fields w ∧
    forward_fields (review_word rating true now w) = forward_fields w ∧
    (∀ w2 : Word, forward_fields w = forward_fields w2 →
      forward_fields (review_word rating false now w) =
        forward_fields (review_word rating false now w2)) ∧
    (∀ w2 : Word, reverse_fields w = reverse_fields w2 →
      reverse_fields (review_word rating true now w) =
        reverse_fields (review_word rating true now w2)) := by
  refine ⟨?_, ?_, ?_, ?_⟩
  · simp [review_word, reverse_fields]
  · simp [review_word, forward_fields]
  · intro w2 h
    simp only [forward_fields, Prod.mk.injEq] at h
    simp [review_word, forward_fields, h.1, h.2.1, h.2.2.1]
  · intro w2 h
    simp only [reverse_fields, Prod.mk.injEq] at h
    simp [review_word, reverse_fields, h.1, h.2.1, h.2.2.1]

/-- C7 witness: the frame and non-interference facts at rating 3, time 0, on
two concrete rows that share forward fields but differ in reverse fields. -/
theorem review_word_direction_independence_witness :
    reverse_fields (review_word 3 false 0
        ⟨some (5/2), some 1, some 1, some 0, some 2, some 3, some 2, some 9⟩) =
      reverse_fields ⟨some (5/2), some 1, some 1, some 0, some 2, some 3, some 2, some 9⟩ ∧
    forward_fields (review_word 3 false 0
        ⟨some (5/2), some 1, some 1, some 0, some 2, some 3, some 2, some 9⟩) =
      forward_fields (review_word 3 false 0
        ⟨some (5/2), some 1, some 1, some 0, none, none, none, none⟩) :=
  ⟨(review_word_direction_independence 3 0
      ⟨some (5/2), some 1, some 1, some 0, some 2, some 3, some 2, some 9⟩).1,
   (review_word_direction_independence 3 0
      ⟨some (5/2), some 1, some 1, some 0, some 2, some 3, some 2, some 9⟩).2.2.1
     ⟨some (5/2), some 1, some 1, some 0, none, none, none, none⟩ rfl⟩

/-- C8: for every rating outside 1..4, every direction, time and row, the
review endpoint answers with the InvalidRating error before the update
algorithm runs and the stored scheduling state is unchanged. -/
theorem api_review_word_invalid_rating (rating : ℤ)
    (hr : rating ∉ ([1, 2, 3, 4] : List ℤ))
    (direction_reverse : Bool) (now : ℤ) (w : Word) :
    api_review_word rating direction_reverse now w =
      (Except.error ReviewError.InvalidRating, w) := by
  simp [api_review_word, hr]

/-- C8 witness: rating 5 on a concrete row is rejected with the row intact. -/
theorem api_review_word_invalid_rating_witness :
    api_review_word 5 false 0 ⟨some 2, some 1, some 1, some 0, none, none, none, none⟩ =
      (Except.error ReviewError.InvalidRating,
       ⟨some 2, some 1, some 1, some 0, none, none, none, none⟩) :=
  api_review_word_invalid_rating 5 (by decide) false 0
    ⟨some 2, some 1, some 1, some 0, none, none, none, none⟩

/-- C9: for every rating in 1..4, both directions and both operations that set
an interval — the review update and the reset — the due date stored for the
affected direction equals `now + interval` days, with `now` the time of the
operation and `interval` the interval that operation stored. -/
theorem due_date_is_now_plus_interval (rating : ℤ)
    (hr : rating = 1 ∨ rating = 2 ∨ rating = 3 ∨ rating = 4)
    (direction_reverse : Bool) (now : ℤ) (w : Word) :
    (get_anki_fields now (review_word rating direction_reverse now w)
        direction_reverse).due_date =
      now + (get_anki_fields now (review_word rating direction_reverse now w)
        direction_reverse).interval ∧
    (get_anki_fields now (reset_word now w) direction_reverse).due_date =
      now + (get_anki_fields now (reset_word now w) direction_reverse).interval := by
  cases direction_reverse <;>
    simp [review_word, reset_word, get_anki_fields]

/-- C9 witness: the due-date equation at rating 3, forward direction, time 7,
on a concrete row. -/
theorem due_date_is_now_plus_interval_witness :
    (get_anki_fields 7 (review_word 3 false 7
        ⟨some (5/2), some 1, some 1, some 0, none, none, none, none⟩) false).due_date =
      7 + (get_anki_fields 7 (review_word 3 false 7
        ⟨some (5/2), some 1, some 1, some 0, none, none, none, none⟩) false).interval ∧
    (get_anki_fields 7 (reset_word 7
        ⟨some (5/2), some 1, some 1, some 0, none, none, none, none⟩) false).due_date =
      7 + (get_anki_fields 7 (reset_word 7
        ⟨some (5/2), some 1, some 1, some 0, none, none, none, none⟩) false).interval :=
  due_date_is_now_plus_interval 3 (by norm_num) false 7
    ⟨some (5/2), some 1, some 1, some 0, none, none, none, none⟩

end Glosify
